import Mathlib

/-!
Shallow embedding of `src/doc.rs` from the gluon repository: the documentation
generator that walks a directory of `.glu` source files, type-checks each one,
builds a documentation `Record` from the inferred type and the collected
metadata, renders it through a template and writes the result into a mirrored
output tree.

External collaborators (the `base` and `check` crates, the `walkdir` iterator,
the `handlebars` engine, the file system) are modelled as explicit parameters
gathered in an `Env` structure; the control flow of `record`, `generate` and
`generate_for_path` is translated statement by statement from the Rust source.
The observable behaviour of a run (files opened, type-check invocations,
directories created, output files written, final result) is collected in a
`RunResult`.
-/

namespace GluonDoc

/-- Textual representations of a field's type as printed by the external
`base` crate.  `unresolvedText` models `unresolved_type().to_string()` (the
type as written, aliases not expanded); `resolvedText` models `to_string()`
on the field's type (aliases expanded). -/
structure TypeText where
  unresolvedText : String
  resolvedText : String
deriving DecidableEq

/-- One entry of `ArcType::type_field_iter()`: a type-level field of the
semantic type, in declaration order. -/
structure TypeFieldEntry where
  name : String
  typ : TypeText
deriving DecidableEq

/-- One entry of `ArcType::row_iter()`: a value-level field of the semantic
type, in row order. -/
structure RowFieldEntry where
  name : String
  typ : TypeText
deriving DecidableEq

/-- The semantic type of a checked module (`base::types::ArcType`), abstracted
to the two ordered field iterators that `doc.rs` consumes. -/
structure ArcType where
  typeFields : List TypeFieldEntry
  rowFields : List RowFieldEntry
deriving DecidableEq

/-- `base::metadata::Metadata`, restricted to the two fields `doc.rs` reads:
the optional doc comment and the nested map from declaration names to child
metadata (`module : BTreeMap<String, Metadata>`, modelled as an association
list with the map's key uniqueness irrelevant to lookups). -/
inductive Metadata where
  | mk (comment : Option String) (module : List (String × Metadata))

/-- The `comment` field of a `Metadata`. -/
def Metadata.comment : Metadata → Option String
  | .mk c _ => c

/-- The `module` map of a `Metadata`. -/
def Metadata.module : Metadata → List (String × Metadata)
  | .mk _ m => m

/-- `Field` from `doc.rs` (the serialized `typ` field is named `type`). -/
structure Field where
  name : String
  typ : String
  comment : String
deriving DecidableEq

/-- `Record` from `doc.rs`. -/
structure Record where
  types : List Field
  values : List Field
deriving DecidableEq

/-- `Module` from `doc.rs`. -/
structure Module where
  name : String
  record : Record
deriving DecidableEq

/-- `record` from `doc.rs`: build the two `Field` lists by mapping over the
type-field iterator (unresolved type text) and the row iterator (type text via
`to_string`), looking each field's comment up in `meta.module` and defaulting
to the empty string. -/
def record (typ : ArcType) (meta : Metadata) : Record :=
  { types := typ.typeFields.map (fun field =>
      { name := field.name
        typ := field.typ.unresolvedText
        comment := ((meta.module.lookup field.name).bind Metadata.comment).getD "" })
    values := typ.rowFields.map (fun field =>
      { name := field.name
        typ := field.typ.resolvedText
        comment := ((meta.module.lookup field.name).bind Metadata.comment).getD "" }) }

/-- Split a file name (as a character list) at every dot. -/
def splitOnDot : List Char → List (List Char)
  | [] => [[]]
  | c :: cs =>
    let r := splitOnDot cs
    if c = '.' then [] :: r
    else
      match r with
      | [] => [[c]]
      | h :: t => (c :: h) :: t

/-- `Path::extension()` of a single file name: the portion after the last dot,
`none` when there is no dot or when the only dot leads a hidden file such as
`.glu`. -/
def fileExt (s : String) : Option String :=
  match splitOnDot s.data with
  | [] => none
  | [_] => none
  | p :: rest => if p = [] ∧ rest.length = 1 then none else rest.getLast?.map String.mk

/-- `Path::with_extension(e)` on a single file name. -/
def withExtStr (s e : String) : String :=
  match fileExt s with
  | none => s ++ "." ++ e
  | some _ => String.mk (List.intercalate ['.'] (splitOnDot s.data).dropLast) ++ "." ++ e

/-- Paths are modelled as lists of components, as yielded by the walker (the
walked root is the leading component of every yielded path). -/
abbrev FsPath := List String

/-- `Path::extension()` of a full path: the extension of its last component. -/
def pathExt : FsPath → Option String
  | [] => none
  | [x] => fileExt x
  | _ :: xs => pathExt xs

/-- `Path::with_extension` on a full path: rewrite the last component. -/
def pathWithExt : FsPath → String → FsPath
  | [], _ => []
  | [x], e => [withExtStr x e]
  | x :: xs, e => x :: pathWithExt xs e

/-- `Path::display()`: components joined with `/`. -/
def pathDisplay : FsPath → String
  | [] => ""
  | [x] => x
  | x :: xs => x ++ "/" ++ pathDisplay xs

/-- Modelled from the spec: `base::filename_to_module` (declared outside this
core's source) derives a module name from a file path — the documentable
suffix is dropped and path separators become dots. -/
def filename_to_module (s : String) : String :=
  let cs := s.data
  let stem :=
    if 4 ≤ cs.length ∧ cs.drop (cs.length - 4) = ['.', 'g', 'l', 'u'] then
      cs.take (cs.length - 4)
    else cs
  String.mk (stem.map (fun c => if c = '/' ∨ c = '\\' then '.' else c))

/-- A directory entry yielded by the walker.  `utf8` records whether
`path().to_str()` succeeds on the full path (a path whose extension is
representable may still fail `to_str()` on another component). -/
structure Entry where
  path : FsPath
  isFile : Bool
  utf8 : Bool
deriving DecidableEq

/-- The entry filter of `generate_for_path`: regular files whose extension is
`glu` are processed, everything else is skipped. -/
def documentable (e : Entry) : Bool := e.isFile && (pathExt e.path == some "glu")

/-- The error type (`failure::Error`), with the two `with_context`
annotations of `doc.rs` kept structured so that the presence or absence of a
path annotation is observable: `openInputContext` models the context message
naming the input path added when `File::open` fails, and `createOutputContext`
models the context message naming the output path added when `File::create`
fails.  The plain `?` conversions (`read_to_string`, `create_dir_all`) carry
no path and are modelled by `ioErr`. -/
inductive GluErr where
  | walkdir (msg : String)
  | ioErr (msg : String)
  | openInputContext (path : FsPath) (msg : String)
  | typecheckErr (msg : String)
  | createOutputContext (path : FsPath) (msg : String)
  | nonUtf8
  | renderErr (msg : String)
deriving DecidableEq

/-- The path an error is annotated with, if any. -/
def carriesPath : GluErr → Option FsPath
  | .openInputContext p _ => some p
  | .createOutputContext p _ => some p
  | _ => none

/-- The external collaborators of `generate_for_path`, as one explicit
environment: the walker's output stream, the file system operations, the
type-checking collaborator (`Compiler::typecheck_str`, taking a module name
and the source text), the metadata collector, and the template engine. -/
structure Env where
  walk : List (Except String Entry)
  openFile : FsPath → Except String Unit
  readFile : FsPath → Except String String
  typecheck : String → String → Except String (String × ArcType)
  collectMeta : String → Metadata
  createDirAll : FsPath → Except String Unit
  createFile : FsPath → Except String Unit
  render : Module → Except String String

/-- `generate` from `doc.rs`: build the `Module` and render it through the
template engine. -/
def generate (render : Module → Except String String) (name : String)
    (typ : ArcType) (meta : Metadata) : Except String String :=
  render { name := name, record := record typ meta }

/-- Observable outcome of a run: the input files opened, the type-check
invocations made (module name and source text), the directories created, the
output files created together with their final content, and the result. -/
structure RunResult where
  opens : List FsPath
  tcCalls : List (String × String)
  dirCalls : List FsPath
  written : List (FsPath × String)
  result : Except GluErr Unit

/-- The run that did nothing and succeeded. -/
def RunResult.empty : RunResult := ⟨[], [], [], [], .ok ()⟩

/-- Sequential composition of run observations; the second result wins. -/
def RunResult.append (a b : RunResult) : RunResult :=
  ⟨a.opens ++ b.opens, a.tcCalls ++ b.tcCalls, a.dirCalls ++ b.dirCalls,
   a.written ++ b.written, b.result⟩

/-- The body of `generate_for_path`'s loop for one documentable entry,
translated statement by statement from `doc.rs` lines 96–128: open the file
(`with_context` naming the path), read it (plain `?`), type-check the text
under the module name `"basic"`, collect metadata, `create_dir_all` on the
output root joined with the entry's parent, `File::create` the output root
joined with the entry path with its extension replaced by `html`
(`with_context` naming the output path), check `path().to_str()`, derive the
render name via `filename_to_module`, and render into the created file. -/
def processEntry (env : Env) (outPath : FsPath) (ent : Entry) : RunResult :=
  match env.openFile ent.path with
  | .error e => ⟨[ent.path], [], [], [], .error (.openInputContext ent.path e)⟩
  | .ok _ =>
    match env.readFile ent.path with
    | .error e => ⟨[ent.path], [], [], [], .error (.ioErr e)⟩
    | .ok content =>
      match env.typecheck "basic" content with
      | .error e =>
        ⟨[ent.path], [("basic", content)], [], [], .error (.typecheckErr e)⟩
      | .ok (expr, typ) =>
        match env.createDirAll (outPath ++ ent.path.dropLast) with
        | .error e =>
          ⟨[ent.path], [("basic", content)], [outPath ++ ent.path.dropLast], [],
           .error (.ioErr e)⟩
        | .ok _ =>
          match env.createFile (outPath ++ pathWithExt ent.path "html") with
          | .error e =>
            ⟨[ent.path], [("basic", content)], [outPath ++ ent.path.dropLast], [],
             .error (.createOutputContext (outPath ++ pathWithExt ent.path "html") e)⟩
          | .ok _ =>
            if ent.utf8 then
              match generate env.render (filename_to_module (pathDisplay ent.path))
                  typ (env.collectMeta expr) with
              | .error e =>
                ⟨[ent.path], [("basic", content)], [outPath ++ ent.path.dropLast],
                 [(outPath ++ pathWithExt ent.path "html", "")], .error (.renderErr e)⟩
              | .ok text =>
                ⟨[ent.path], [("basic", content)], [outPath ++ ent.path.dropLast],
                 [(outPath ++ pathWithExt ent.path "html", text)], .ok ()⟩
            else
              ⟨[ent.path], [("basic", content)], [outPath ++ ent.path.dropLast],
               [(outPath ++ pathWithExt ent.path "html", "")], .error .nonUtf8⟩

/-- The `for entry in WalkDir::new(path)` loop of `generate_for_path`: a
walker error aborts (`let entry = entry?`), non-documentable entries are
skipped, and each documentable entry is processed, aborting at its first
failing stage. -/
def gfpLoop (env : Env) (outPath : FsPath) : List (Except String Entry) → RunResult
  | [] => RunResult.empty
  | .error e :: _ => ⟨[], [], [], [], .error (.walkdir e)⟩
  | .ok ent :: rest =>
    if documentable ent then
      match (processEntry env outPath ent).result with
      | .ok _ => (processEntry env outPath ent).append (gfpLoop env outPath rest)
      | .error _ => processEntry env outPath ent
    else gfpLoop env outPath rest

/-- `generate_for_path` from `doc.rs`: run the loop over the walker's output.
Its observable behaviour is a function of the environment and the output
root. -/
def generate_for_path (env : Env) (outPath : FsPath) : RunResult :=
  gfpLoop env outPath env.walk

/-- The entries the walker yielded without error. -/
def okEntries (l : List (Except String Entry)) : List Entry :=
  l.filterMap Except.toOption

/-- A small semantic type used by concrete runs. -/
def sampleType : ArcType := ⟨[⟨"Foo", ⟨"FooU", "FooR"⟩⟩], [⟨"bar", ⟨"IntAlias", "Int"⟩⟩]⟩

/-- A small metadata tree used by concrete runs. -/
def sampleMeta : Metadata := .mk none [("Foo", .mk (some "the foo") []), ("bar", .mk none [])]

/-- An environment in which every external operation succeeds. -/
def mkOkEnv (walk : List (Except String Entry)) : Env :=
  { walk := walk
    openFile := fun _ => .ok ()
    readFile := fun _ => .ok "src"
    typecheck := fun _ _ => .ok ("e", sampleType)
    collectMeta := fun _ => sampleMeta
    createDirAll := fun _ => .ok ()
    createFile := fun _ => .ok ()
    render := fun _ => .ok "text" }

/-- One documentable file `std/a.glu` walked from root `std`, everything
succeeding. -/
def env2 : Env := mkOkEnv [.ok ⟨["std", "a.glu"], true, true⟩]

/-- A walked tree with one directory, three documentable files and two files
with other extensions, everything succeeding. -/
def envB : Env := mkOkEnv
  [.ok ⟨["in"], false, true⟩,
   .ok ⟨["in", "a.glu"], true, true⟩,
   .ok ⟨["in", "notes.txt"], true, true⟩,
   .ok ⟨["in", "b.glu"], true, true⟩,
   .ok ⟨["in", "README.md"], true, true⟩,
   .ok ⟨["in", "sub", "c.glu"], true, true⟩]

/-- A walk whose second item is a directory-read error. -/
def envW : Env := mkOkEnv
  [.ok ⟨["in", "a.glu"], true, true⟩, .error "boom", .ok ⟨["in", "z.glu"], true, true⟩]

/-- One documentable file whose content read fails after a successful open. -/
def envRead : Env :=
  { mkOkEnv [.ok ⟨["in", "a.glu"], true, true⟩] with readFile := fun _ => .error "disk" }

/-- One documentable file whose open fails. -/
def envOpen : Env :=
  { mkOkEnv [.ok ⟨["in", "a.glu"], true, true⟩] with openFile := fun _ => .error "denied" }

/-- Three documentable files; the second one's text fails to type-check. -/
def envTc : Env :=
  { mkOkEnv [.ok ⟨["in", "f1.glu"], true, true⟩, .ok ⟨["in", "f2.glu"], true, true⟩,
             .ok ⟨["in", "f3.glu"], true, true⟩] with
    readFile := fun p => .ok (if p = ["in", "f2.glu"] then "bad" else "good")
    typecheck := fun _ c => if c = "bad" then .error "tc failed" else .ok ("e", sampleType) }

/-- One documentable file whose full path is not valid UTF-8. -/
def envUtf : Env := mkOkEnv [.ok ⟨["in", "a.glu"], true, false⟩]

/-- Semantic type with one type-level field `a`, used against metadata whose
entry for `a` carries the empty comment. -/
def cTyp4 : ArcType := ⟨[⟨"a", ⟨"T", "T"⟩⟩], []⟩

/-- Metadata whose entry for `a` has `comment = some ""`. -/
def cMeta4 : Metadata := .mk none [("a", .mk (some "") [])]

/-- Metadata whose entry for `a` has `comment = some "doc"`. -/
def wMeta4 : Metadata := .mk none [("a", .mk (some "doc") [])]

end GluonDoc

namespace GluonDoc

/-- Every branch of `processEntry` opens exactly its own entry's file. -/
theorem processEntry_opens (env : Env) (outPath : FsPath) (ent : Entry) :
    (processEntry env outPath ent).opens = [ent.path] := by
  unfold processEntry
  repeat' split
  all_goals rfl

/-- `processEntry` either makes no type-check call or exactly one, and then
with the module name `"basic"`. -/
theorem processEntry_tcCalls (env : Env) (outPath : FsPath) (ent : Entry) :
    (processEntry env outPath ent).tcCalls = [] ∨
    ∃ c, (processEntry env outPath ent).tcCalls = [("basic", c)] := by
  unfold processEntry
  repeat' split
  all_goals first | exact Or.inl rfl | exact Or.inr ⟨_, rfl⟩

/-- `processEntry` creates at most the one mirrored output directory. -/
theorem processEntry_dirCalls (env : Env) (outPath : FsPath) (ent : Entry) :
    (processEntry env outPath ent).dirCalls = [] ∨
    (processEntry env outPath ent).dirCalls = [outPath ++ ent.path.dropLast] := by
  unfold processEntry
  repeat' split
  all_goals first | exact Or.inl rfl | exact Or.inr rfl

/-- `processEntry` creates at most the one mirrored output file. -/
theorem processEntry_written (env : Env) (outPath : FsPath) (ent : Entry) :
    (processEntry env outPath ent).written = [] ∨
    ∃ t, (processEntry env outPath ent).written
      = [(outPath ++ pathWithExt ent.path "html", t)] := by
  unfold processEntry
  repeat' split
  all_goals first | exact Or.inl rfl | exact Or.inr ⟨_, rfl⟩

/-- The shape of a successful `processEntry` run. -/
theorem processEntry_ok (env : Env) (outPath : FsPath) (ent : Entry)
    (h : (processEntry env outPath ent).result = .ok ()) :
    ∃ c text, processEntry env outPath ent =
      ⟨[ent.path], [("basic", c)], [outPath ++ ent.path.dropLast],
       [(outPath ++ pathWithExt ent.path "html", text)], .ok ()⟩ := by
  revert h
  unfold processEntry
  repeat' split
  all_goals intro h
  all_goals first | exact Except.noConfusion h | exact ⟨_, _, rfl⟩

/-- Prepending the empty observation changes nothing. -/
theorem RunResult.empty_append (b : RunResult) : RunResult.empty.append b = b := by
  cases b
  simp [RunResult.empty, RunResult.append]

/-- Observation composition is associative. -/
theorem RunResult.append_assoc (a b c : RunResult) :
    (a.append b).append c = a.append (b.append c) := by
  simp [RunResult.append, List.append_assoc]

/-- Splitting the loop after a successfully processed prefix of the walk. -/
theorem gfpLoop_append_ok (env : Env) (outPath : FsPath)
    (l1 l2 : List (Except String Entry))
    (h : (gfpLoop env outPath l1).result = .ok ()) :
    gfpLoop env outPath (l1 ++ l2)
      = (gfpLoop env outPath l1).append (gfpLoop env outPath l2) := by
  induction l1 with
  | nil => simp [gfpLoop, RunResult.empty_append]
  | cons x t ih =>
    cases x with
    | error e => exact absurd h (by simp [gfpLoop])
    | ok ent =>
      by_cases hd : documentable ent
      · simp only [gfpLoop, hd, if_true, List.cons_append] at h ⊢
        cases hres : (processEntry env outPath ent).result with
        | ok u =>
          simp only [hres] at h ⊢
          simp only [List.append_eq] at h ⊢
          rw [ih (by simpa [RunResult.append] using h)]
          exact (RunResult.append_assoc _ _ _).symm
        | error e =>
          simp only [hres] at h ⊢
          exact absurd h (by simp [hres])
      · simp only [gfpLoop, hd, if_false, List.cons_append] at h ⊢
        exact ih h

/-- One documentable step of the loop is the entry's processing, followed by
the rest of the loop when that processing succeeded. -/
theorem gfpLoop_step_shape (env : Env) (outPath : FsPath) (ent : Entry)
    (t : List (Except String Entry)) (hd : documentable ent = true) :
    gfpLoop env outPath (.ok ent :: t) = processEntry env outPath ent ∨
    gfpLoop env outPath (.ok ent :: t)
      = (processEntry env outPath ent).append (gfpLoop env outPath t) := by
  simp only [gfpLoop, hd, if_true]
  cases (processEntry env outPath ent).result
  · exact Or.inl rfl
  · exact Or.inr rfl

/-- On a fully successful run, the files opened are exactly the documentable
walked entries in walk order, and the output files written are exactly their
mirrored paths in the same order. -/
theorem gfpLoop_ok_traces (env : Env) (outPath : FsPath)
    (l : List (Except String Entry))
    (h : (gfpLoop env outPath l).result = .ok ()) :
    (gfpLoop env outPath l).opens = ((okEntries l).filter documentable).map Entry.path ∧
    (gfpLoop env outPath l).written.map Prod.fst
      = ((okEntries l).filter documentable).map (fun e => outPath ++ pathWithExt e.path "html") := by
  induction l with
  | nil => simp [gfpLoop, RunResult.empty, okEntries]
  | cons x t ih =>
    cases x with
    | error e => exact absurd h (by simp [gfpLoop])
    | ok ent =>
      have hok : okEntries (.ok ent :: t) = ent :: okEntries t := by
        simp [okEntries, Except.toOption]
      by_cases hd : documentable ent
      · simp only [gfpLoop, hd, if_true] at h ⊢
        cases hres : (processEntry env outPath ent).result with
        | ok u =>
          cases u
          simp only [hres] at h ⊢
          have hrest : (gfpLoop env outPath t).result = .ok () := by
            simpa [RunResult.append] using h
          obtain ⟨c, text, hpe⟩ := processEntry_ok env outPath ent hres
          obtain ⟨ih1, ih2⟩ := ih hrest
          rw [hpe, hok]
          simp [RunResult.append, hd, ih1, ih2]
        | error e2 => simp only [hres] at h ⊢; exact absurd h (by simp)
      · simp only [gfpLoop, hd, if_false] at h ⊢
        obtain ⟨ih1, ih2⟩ := ih h
        rw [hok]
        simp [hd, ih1, ih2]

/-- Every observed open, write or directory creation of a run belongs to a
documentable walked entry, and every type-check call uses the module name
`"basic"`. -/
theorem gfpLoop_trace_sources (env : Env) (outPath : FsPath)
    (l : List (Except String Entry)) :
    (∀ p ∈ (gfpLoop env outPath l).opens,
      ∃ e, .ok e ∈ l ∧ documentable e = true ∧ p = e.path) ∧
    (∀ w ∈ (gfpLoop env outPath l).written,
      ∃ e, .ok e ∈ l ∧ documentable e = true ∧ w.1 = outPath ++ pathWithExt e.path "html") ∧
    (∀ d ∈ (gfpLoop env outPath l).dirCalls,
      ∃ e, .ok e ∈ l ∧ documentable e = true ∧ d = outPath ++ e.path.dropLast) ∧
    (∀ q ∈ (gfpLoop env outPath l).tcCalls, q.1 = "basic") := by
  induction l with
  | nil => simp [gfpLoop, RunResult.empty]
  | cons x t ih =>
    obtain ⟨ih1, ih2, ih3, ih4⟩ := ih
    cases x with
    | error e => simp [gfpLoop]
    | ok ent =>
      by_cases hd : documentable ent
      · have hstep := gfpLoop_step_shape env outPath ent t hd
        have hpe : (∀ p ∈ (processEntry env outPath ent).opens, p = ent.path) ∧
            (∀ w ∈ (processEntry env outPath ent).written,
              w.1 = outPath ++ pathWithExt ent.path "html") ∧
            (∀ d ∈ (processEntry env outPath ent).dirCalls,
              d = outPath ++ ent.path.dropLast) ∧
            (∀ q ∈ (processEntry env outPath ent).tcCalls, q.1 = "basic") := by
          refine ⟨?_, ?_, ?_, ?_⟩
          · intro p hp; rw [processEntry_opens] at hp; simpa using hp
          · intro w hw
            rcases processEntry_written env outPath ent with hw2 | ⟨tx, hw2⟩ <;> rw [hw2] at hw
            · simp at hw
            · simp at hw; rw [hw]
          · intro d hdq
            rcases processEntry_dirCalls env outPath ent with hw2 | hw2 <;> rw [hw2] at hdq
            · simp at hdq
            · simpa using hdq
          · intro q hq
            rcases processEntry_tcCalls env outPath ent with hw2 | ⟨c, hw2⟩ <;> rw [hw2] at hq
            · simp at hq
            · simp at hq; rw [hq]
        obtain ⟨hp1, hp2, hp3, hp4⟩ := hpe
        rcases hstep with hstep | hstep <;> rw [hstep] <;> refine ⟨?_, ?_, ?_, ?_⟩
        · intro p hp; exact ⟨ent, by simp, hd, hp1 p hp⟩
        · intro w hw; exact ⟨ent, by simp, hd, hp2 w hw⟩
        · intro d hdq; exact ⟨ent, by simp, hd, hp3 d hdq⟩
        · intro q hq; exact hp4 q hq
        · intro p hp
          rcases (by simpa [RunResult.append] using hp :
              p ∈ (processEntry env outPath ent).opens ∨ p ∈ (gfpLoop env outPath t).opens) with hp | hp
          · exact ⟨ent, by simp, hd, hp1 p hp⟩
          · obtain ⟨e', a, b, c⟩ := ih1 p hp; exact ⟨e', by simp [a], b, c⟩
        · intro w hw
          rcases (by simpa [RunResult.append] using hw :
              w ∈ (processEntry env outPath ent).written ∨ w ∈ (gfpLoop env outPath t).written) with hw | hw
          · exact ⟨ent, by simp, hd, hp2 w hw⟩
          · obtain ⟨e', a, b, c⟩ := ih2 w hw; exact ⟨e', by simp [a], b, c⟩
        · intro d hdq
          rcases (by simpa [RunResult.append] using hdq :
              d ∈ (processEntry env outPath ent).dirCalls ∨ d ∈ (gfpLoop env outPath t).dirCalls) with hdq | hdq
          · exact ⟨ent, by simp, hd, hp3 d hdq⟩
          · obtain ⟨e', a, b, c⟩ := ih3 d hdq; exact ⟨e', by simp [a], b, c⟩
        · intro q hq
          rcases (by simpa [RunResult.append] using hq :
              q ∈ (processEntry env outPath ent).tcCalls ∨ q ∈ (gfpLoop env outPath t).tcCalls) with hq | hq
          · exact hp4 q hq
          · exact ih4 q hq
      · simp only [gfpLoop, hd, if_false]
        refine ⟨?_, ?_, ?_, ?_⟩
        · intro p hp; obtain ⟨e', a, b, c⟩ := ih1 p hp; exact ⟨e', by simp [a], b, c⟩
        · intro w hw; obtain ⟨e', a, b, c⟩ := ih2 w hw; exact ⟨e', by simp [a], b, c⟩
        · intro d hdq; obtain ⟨e', a, b, c⟩ := ih3 d hdq; exact ⟨e', by simp [a], b, c⟩
        · intro q hq; exact ih4 q hq

end GluonDoc

namespace GluonDoc

/-- Claim C1: for every semantic type and metadata tree, each `Field` of
`Record.types` carries the unresolved textual representation of the
corresponding type-level field's type (position by position, in declaration
order), while each `Field` of `Record.values` carries the resolved textual
representation of the corresponding value-level field's type; both lists have
exactly the lengths of their source sequences, so a name occurring both as a
type-field and a value-field yields two separate `Field`s, each with its own
correctly-distinguished type text. -/
theorem record_type_text_fidelity (typ : ArcType) (meta : Metadata) (i : Nat) :
    (record typ meta).types.length = typ.typeFields.length ∧
    (record typ meta).values.length = typ.rowFields.length ∧
    ((record typ meta).types[i]?).map Field.typ
      = (typ.typeFields[i]?).map (fun f => f.typ.unresolvedText) ∧
    ((record typ meta).values[i]?).map Field.typ
      = (typ.rowFields[i]?).map (fun f => f.typ.resolvedText) ∧
    ((record typ meta).types[i]?).map Field.name
      = (typ.typeFields[i]?).map TypeFieldEntry.name ∧
    ((record typ meta).values[i]?).map Field.name
      = (typ.rowFields[i]?).map RowFieldEntry.name := by
  refine ⟨by simp [record], by simp [record], ?_, ?_, ?_, ?_⟩ <;>
    simp only [record, List.getElem?_map, Option.map_map] <;>
    cases typ.typeFields[i]? <;> cases typ.rowFields[i]? <;> rfl

/-- Claim C5: `record` emits `Record.types` in exactly the declaration order
of the type-field sequence and `Record.values` in exactly the row order of the
value-field sequence — the name lists are the pointwise images of the source
sequences, with no sorting, deduplication or collision detection, so duplicate
names pass through with their multiplicities preserved. -/
theorem record_order_preserved (typ : ArcType) (meta : Metadata) :
    (record typ meta).types.map Field.name = typ.typeFields.map TypeFieldEntry.name ∧
    (record typ meta).values.map Field.name = typ.rowFields.map RowFieldEntry.name ∧
    (∀ s, ((record typ meta).types.map Field.name).count s
      = (typ.typeFields.map TypeFieldEntry.name).count s) ∧
    (∀ s, ((record typ meta).values.map Field.name).count s
      = (typ.rowFields.map RowFieldEntry.name).count s) := by
  refine ⟨?_, ?_, ?_, ?_⟩ <;> simp only [record, List.map_map] <;>
    first
    | rfl
    | exact fun s => rfl

/-- Claim C9: `record` is a pure, deterministic function of its two inputs —
equal inputs give equal `Record`s, field for field. -/
theorem record_deterministic (t1 t2 : ArcType) (m1 m2 : Metadata)
    (ht : t1 = t2) (hm : m1 = m2) : record t1 m1 = record t2 m2 := by
  rw [ht, hm]

/-- Witness for `record_deterministic` at a concrete type and metadata
tree. -/
theorem record_deterministic_witness :
    record sampleType sampleMeta = record sampleType sampleMeta :=
  record_deterministic sampleType sampleType sampleMeta sampleMeta rfl rfl

/-- Claim C4, counterexample: the claimed biconditional — a field's comment is
empty exactly when the metadata has no entry for the name or the entry has no
comment — fails when the entry's comment is present but is itself the empty
string: with a type-field `a` and metadata entry `a` whose comment is
`some ""`, the emitted comment is `""` although an entry with a comment
exists. -/
theorem record_comment_iff_counterexample :
    ¬ (∀ (typ : ArcType) (meta : Metadata) (fld : Field),
        fld ∈ (record typ meta).types →
        (fld.comment = "" ↔ (meta.module.lookup fld.name).bind Metadata.comment = none)) := by
  intro h
  have := (h cTyp4 cMeta4 (Field.mk "a" "T" "") (by decide)).mp rfl
  exact absurd this (by decide)

/-- Claim C4, amended: every emitted `Field`'s comment equals the metadata
entry's comment when that entry and its comment exist, and the empty string
otherwise; consequently the comment is `""` exactly when there is no entry,
the entry has no comment, or the entry's comment is itself the empty string —
it is a total `String`, never absent. -/
theorem record_comment_amended (typ : ArcType) (meta : Metadata) (fld : Field)
    (h : fld ∈ (record typ meta).types ∨ fld ∈ (record typ meta).values) :
    fld.comment = ((meta.module.lookup fld.name).bind Metadata.comment).getD "" ∧
    (fld.comment = "" ↔
      ((meta.module.lookup fld.name).bind Metadata.comment = none ∨
       (meta.module.lookup fld.name).bind Metadata.comment = some "")) := by
  have hc : fld.comment = ((meta.module.lookup fld.name).bind Metadata.comment).getD "" := by
    rcases h with h | h <;>
    · simp only [record, List.mem_map] at h
      obtain ⟨f, hf, rfl⟩ := h
      rfl
  refine ⟨hc, ?_⟩
  rw [hc]
  cases hb : (meta.module.lookup fld.name).bind Metadata.comment <;> simp

/-- Witness for `record_comment_amended` at a type-field `a` whose metadata
entry carries the comment `"doc"`. -/
theorem record_comment_amended_witness :
    (Field.mk "a" "T" "doc").comment
      = ((wMeta4.module.lookup (Field.mk "a" "T" "doc").name).bind Metadata.comment).getD "" ∧
    ((Field.mk "a" "T" "doc").comment = "" ↔
      ((wMeta4.module.lookup (Field.mk "a" "T" "doc").name).bind Metadata.comment = none ∨
       (wMeta4.module.lookup (Field.mk "a" "T" "doc").name).bind Metadata.comment = some "")) :=
  record_comment_amended cTyp4 wMeta4 (Field.mk "a" "T" "doc") (Or.inl (by decide))

/-- Claim C2, counterexample: walking input root `std`, the single
documentable file `std/a.glu` is written to `out/std/a.html` — the output root
joined with the file's full walked path — and not to the claimed
`out/a.html`, the output root joined with the path relative to the input
root. -/
theorem output_path_counterexample :
    (generate_for_path env2 ["out"]).written.map Prod.fst = [["out", "std", "a.html"]] ∧
    (["out", "std", "a.html"] : FsPath)
      ≠ ["out"] ++ pathWithExt ((["std", "a.glu"] : FsPath).drop 1) "html" :=
  ⟨rfl, by decide⟩

/-- Claim C2, amended: on a successful run every documentable walked file
produces exactly one output file, at the output root joined with the file's
full walked path (input root prefix retained) with the source extension
replaced by `html`, in walk order — so 3 documentable files among 5 entries
produce exactly 3 output files at those paths. -/
theorem generate_for_path_output_paths (env : Env) (outPath : FsPath)
    (h : (generate_for_path env outPath).result = .ok ()) :
    (generate_for_path env outPath).written.map Prod.fst
      = ((okEntries env.walk).filter documentable).map
          (fun e => outPath ++ pathWithExt e.path "html") :=
  (gfpLoop_ok_traces env outPath env.walk h).2

/-- Witness for `generate_for_path_output_paths`: a walked tree with three
`.glu` files, one directory and two files with other extensions yields exactly
three mirrored output files. -/
theorem generate_for_path_output_paths_witness :
    (generate_for_path envB ["out"]).written.map Prod.fst
      = [["out", "in", "a.html"], ["out", "in", "b.html"], ["out", "in", "sub", "c.html"]] :=
  generate_for_path_output_paths envB ["out"] rfl

/-- Claim C3, counterexample: processing `std/a.glu` invokes the type-checking
collaborator with the fixed module name `"basic"`, which differs from the
module name `filename_to_module` derives from that file's path. -/
theorem module_name_counterexample :
    (generate_for_path env2 ["out"]).tcCalls = [("basic", "src")] ∧
    filename_to_module (pathDisplay (["std", "a.glu"] : FsPath)) ≠ "basic" :=
  ⟨rfl, by decide⟩

/-- Claim C3, amended: every invocation of the type-checking collaborator made
by `generate_for_path` passes the fixed module name `"basic"` together with
the file's text; the path-derived module name is used only for rendering. -/
theorem generate_for_path_fixed_module_name (env : Env) (outPath : FsPath)
    (q : String × String) (hq : q ∈ (generate_for_path env outPath).tcCalls) :
    q.1 = "basic" :=
  (gfpLoop_trace_sources env outPath env.walk).2.2.2 q hq

/-- Witness for `generate_for_path_fixed_module_name` at the run over
`std/a.glu`. -/
theorem generate_for_path_fixed_module_name_witness :
    (("basic", "src") : String × String).1 = "basic" :=
  generate_for_path_fixed_module_name env2 ["out"] ("basic", "src") (by decide)

/-- Claim C6: after a successfully processed walk prefix, a documentable entry
whose processing fails at any stage aborts the whole run with that error, the
outputs already written for the earlier files remaining exactly as they are
and nothing of the remaining walk being processed; in particular, when the
entry fails type-checking, no output file at all is written for it or for any
later file. -/
theorem generate_for_path_fail_fast (env : Env) (outPath : FsPath)
    (es1 es2 : List (Except String Entry)) (e : Entry)
    (hwalk : env.walk = es1 ++ .ok e :: es2)
    (hok : (gfpLoop env outPath es1).result = .ok ())
    (hdoc : documentable e = true) :
    (∀ err, (processEntry env outPath e).result = .error err →
      (generate_for_path env outPath).result = .error err ∧
      (generate_for_path env outPath).written
        = (gfpLoop env outPath es1).written ++ (processEntry env outPath e).written) ∧
    (∀ c msg, env.openFile e.path = .ok () → env.readFile e.path = .ok c →
      env.typecheck "basic" c = .error msg →
      (generate_for_path env outPath).result = .error (.typecheckErr msg) ∧
      (generate_for_path env outPath).written = (gfpLoop env outPath es1).written) := by
  have hsplit : generate_for_path env outPath
      = (gfpLoop env outPath es1).append (gfpLoop env outPath (.ok e :: es2)) := by
    rw [generate_for_path, hwalk]
    exact gfpLoop_append_ok env outPath es1 (.ok e :: es2) hok
  constructor
  · intro err herr
    have hloop : gfpLoop env outPath (.ok e :: es2) = processEntry env outPath e := by
      simp only [gfpLoop, hdoc, if_true, herr]
    rw [hsplit, hloop]
    exact ⟨by simp [RunResult.append, herr], rfl⟩
  · intro c msg h1 h2 h3
    have hpe : processEntry env outPath e
        = ⟨[e.path], [("basic", c)], [], [], .error (.typecheckErr msg)⟩ := by
      simp only [processEntry, h1, h2, h3]
    have hloop : gfpLoop env outPath (.ok e :: es2) = processEntry env outPath e := by
      simp only [gfpLoop, hdoc, if_true, hpe]
    rw [hsplit, hloop, hpe]
    exact ⟨rfl, by simp [RunResult.append]⟩

/-- Witness for `generate_for_path_fail_fast`: of three walked files the
second fails type-checking; the run aborts with that error, the output for
the first file exists, and no output exists for the second or third. -/
theorem generate_for_path_fail_fast_witness :
    (generate_for_path envTc ["out"]).result = .error (.typecheckErr "tc failed") ∧
    (generate_for_path envTc ["out"]).written = [(["out", "in", "f1.html"], "text")] :=
  (generate_for_path_fail_fast envTc ["out"] [.ok ⟨["in", "f1.glu"], true, true⟩]
    [.ok ⟨["in", "f3.glu"], true, true⟩] ⟨["in", "f2.glu"], true, true⟩ rfl rfl rfl).2
    "bad" "tc failed" rfl rfl rfl

/-- Claim C7: the run processes exactly the walked entries that are regular
files with the documentable extension — on a successful run the files opened
are precisely the documentable entries in walk order, any observed open,
output-file creation or directory creation belongs to a documentable walked
entry (skipped entries cause no read and no write), and a walker error after a
successfully processed prefix aborts the entire run at once, with the
observations of the prefix only. -/
theorem generate_for_path_walker_behaviour (env : Env) (outPath : FsPath) :
    ((generate_for_path env outPath).result = .ok () →
      (generate_for_path env outPath).opens
        = ((okEntries env.walk).filter documentable).map Entry.path) ∧
    (∀ p ∈ (generate_for_path env outPath).opens,
      ∃ e, .ok e ∈ env.walk ∧ documentable e = true ∧ p = e.path) ∧
    (∀ w ∈ (generate_for_path env outPath).written,
      ∃ e, .ok e ∈ env.walk ∧ documentable e = true ∧
        w.1 = outPath ++ pathWithExt e.path "html") ∧
    (∀ d ∈ (generate_for_path env outPath).dirCalls,
      ∃ e, .ok e ∈ env.walk ∧ documentable e = true ∧ d = outPath ++ e.path.dropLast) ∧
    (∀ es1 err es2, env.walk = es1 ++ .error err :: es2 →
      (gfpLoop env outPath es1).result = .ok () →
      generate_for_path env outPath
        = ⟨(gfpLoop env outPath es1).opens, (gfpLoop env outPath es1).tcCalls,
           (gfpLoop env outPath es1).dirCalls, (gfpLoop env outPath es1).written,
           .error (.walkdir err)⟩) := by
  obtain ⟨h1, h2, h3, _⟩ := gfpLoop_trace_sources env outPath env.walk
  refine ⟨fun h => (gfpLoop_ok_traces env outPath env.walk h).1, h1, h2, h3, ?_⟩
  intro es1 err es2 hwalk hok
  rw [generate_for_path, hwalk, gfpLoop_append_ok env outPath es1 (.error err :: es2) hok]
  have hstep : gfpLoop env outPath (.error err :: es2)
      = ⟨[], [], [], [], .error (.walkdir err)⟩ := by
    simp [gfpLoop]
  rw [hstep]
  simp [RunResult.append]

/-- Witness for `generate_for_path_walker_behaviour`: a walk whose second item
is a directory-read error processes only the first file and aborts with the
walker error, never reaching the third entry. -/
theorem generate_for_path_walker_behaviour_witness :
    generate_for_path envW ["out"]
      = ⟨[["in", "a.glu"]], [("basic", "src")], [["out", "in"]],
         [(["out", "in", "a.html"], "text")], .error (.walkdir "boom")⟩ :=
  (generate_for_path_walker_behaviour envW ["out"]).2.2.2.2
    [.ok ⟨["in", "a.glu"], true, true⟩] "boom" [.ok ⟨["in", "z.glu"], true, true⟩] rfl rfl

/-- Claim C8, counterexample: when the file opens but reading its content
fails, the run aborts with the raw I/O error, which carries no path
annotation — contradicting the claim that any failure to read a file's text is
annotated with the offending path. -/
theorem read_error_unannotated_counterexample :
    (generate_for_path envRead ["out"]).result = .error (.ioErr "disk") ∧
    carriesPath (.ioErr "disk") = none :=
  ⟨rfl, rfl⟩

/-- Claim C8, amended: a failure to open an input file aborts the run with an
error annotated with that file's path, while a failure while reading the
already-opened file's content aborts the run with the raw I/O error, without
any path annotation. -/
theorem generate_for_path_open_read_errors (env : Env) (outPath : FsPath)
    (es1 es2 : List (Except String Entry)) (e : Entry)
    (hwalk : env.walk = es1 ++ .ok e :: es2)
    (hok : (gfpLoop env outPath es1).result = .ok ())
    (hdoc : documentable e = true) :
    (∀ msg, env.openFile e.path = .error msg →
      (generate_for_path env outPath).result = .error (.openInputContext e.path msg) ∧
      carriesPath (.openInputContext e.path msg) = some e.path) ∧
    (∀ msg, env.openFile e.path = .ok () → env.readFile e.path = .error msg →
      (generate_for_path env outPath).result = .error (.ioErr msg) ∧
      carriesPath (.ioErr msg) = none) := by
  have hsplit : generate_for_path env outPath
      = (gfpLoop env outPath es1).append (gfpLoop env outPath (.ok e :: es2)) := by
    rw [generate_for_path, hwalk]
    exact gfpLoop_append_ok env outPath es1 (.ok e :: es2) hok
  constructor
  · intro msg h1
    have hpe : processEntry env outPath e
        = ⟨[e.path], [], [], [], .error (.openInputContext e.path msg)⟩ := by
      simp only [processEntry, h1]
    have hloop : gfpLoop env outPath (.ok e :: es2) = processEntry env outPath e := by
      simp only [gfpLoop, hdoc, if_true, hpe]
    rw [hsplit, hloop, hpe]
    exact ⟨rfl, rfl⟩
  · intro msg h1 h2
    have hpe : processEntry env outPath e
        = ⟨[e.path], [], [], [], .error (.ioErr msg)⟩ := by
      simp only [processEntry, h1, h2]
    have hloop : gfpLoop env outPath (.ok e :: es2) = processEntry env outPath e := by
      simp only [gfpLoop, hdoc, if_true, hpe]
    rw [hsplit, hloop, hpe]
    exact ⟨rfl, rfl⟩

/-- Witness for `generate_for_path_open_read_errors`: a failing `File::open`
on `in/a.glu` aborts the run with an error annotated with that path. -/
theorem generate_for_path_open_read_errors_witness :
    (generate_for_path envOpen ["out"]).result
      = .error (.openInputContext ["in", "a.glu"] "denied") ∧
    carriesPath (.openInputContext ["in", "a.glu"] "denied") = some ["in", "a.glu"] :=
  (generate_for_path_open_read_errors envOpen ["out"] [] []
    ⟨["in", "a.glu"], true, true⟩ rfl rfl rfl).1 "denied" rfl

/-- Claim C10: the output file is created before the entry path's UTF-8 check
and before rendering, so when the run aborts for that entry because
`path().to_str()` fails or because rendering fails, the entry's (empty) output
file has already been created on disk, in addition to the outputs of the
earlier files — the abort does not leave the output tree unchanged for the
failing file. -/
theorem generate_for_path_creates_output_before_render (env : Env) (outPath : FsPath)
    (es1 es2 : List (Except String Entry)) (e : Entry) (c expr : String) (typ : ArcType)
    (hwalk : env.walk = es1 ++ .ok e :: es2)
    (hok : (gfpLoop env outPath es1).result = .ok ())
    (hdoc : documentable e = true)
    (h1 : env.openFile e.path = .ok ())
    (h2 : env.readFile e.path = .ok c)
    (h3 : env.typecheck "basic" c = .ok (expr, typ))
    (h4 : env.createDirAll (outPath ++ e.path.dropLast) = .ok ())
    (h5 : env.createFile (outPath ++ pathWithExt e.path "html") = .ok ()) :
    (e.utf8 = false →
      (generate_for_path env outPath).result = .error .nonUtf8 ∧
      (generate_for_path env outPath).written
        = (gfpLoop env outPath es1).written
            ++ [(outPath ++ pathWithExt e.path "html", "")]) ∧
    (∀ msg, e.utf8 = true →
      env.render ⟨filename_to_module (pathDisplay e.path), record typ (env.collectMeta expr)⟩
        = .error msg →
      (generate_for_path env outPath).result = .error (.renderErr msg) ∧
      (generate_for_path env outPath).written
        = (gfpLoop env outPath es1).written
            ++ [(outPath ++ pathWithExt e.path "html", "")]) := by
  have hsplit : generate_for_path env outPath
      = (gfpLoop env outPath es1).append (gfpLoop env outPath (.ok e :: es2)) := by
    rw [generate_for_path, hwalk]
    exact gfpLoop_append_ok env outPath es1 (.ok e :: es2) hok
  constructor
  · intro hutf
    have hpe : processEntry env outPath e
        = ⟨[e.path], [("basic", c)], [outPath ++ e.path.dropLast],
           [(outPath ++ pathWithExt e.path "html", "")], .error .nonUtf8⟩ := by
      simp only [processEntry, h1, h2, h3, h4, h5, hutf, Bool.false_eq_true, if_false]
    have hloop : gfpLoop env outPath (.ok e :: es2) = processEntry env outPath e := by
      simp only [gfpLoop, hdoc, if_true, hpe]
    rw [hsplit, hloop, hpe]
    exact ⟨rfl, rfl⟩
  · intro msg hutf hrender
    have hpe : processEntry env outPath e
        = ⟨[e.path], [("basic", c)], [outPath ++ e.path.dropLast],
           [(outPath ++ pathWithExt e.path "html", "")], .error (.renderErr msg)⟩ := by
      simp only [processEntry, h1, h2, h3, h4, h5, hutf, eq_self_iff_true, if_true,
        generate, hrender]
    have hloop : gfpLoop env outPath (.ok e :: es2) = processEntry env outPath e := by
      simp only [gfpLoop, hdoc, if_true, hpe]
    rw [hsplit, hloop, hpe]
    exact ⟨rfl, rfl⟩

/-- Witness for `generate_for_path_creates_output_before_render`: processing
the single file `in/a.glu` whose full path fails the UTF-8 check aborts the
run, yet the empty output file `out/in/a.html` has already been created. -/
theorem generate_for_path_creates_output_before_render_witness :
    (generate_for_path envUtf ["out"]).result = .error .nonUtf8 ∧
    (generate_for_path envUtf ["out"]).written = [(["out", "in", "a.html"], "")] :=
  (generate_for_path_creates_output_before_render envUtf ["out"] [] []
    ⟨["in", "a.glu"], true, false⟩ "src" "e" sampleType rfl rfl rfl rfl rfl rfl rfl rfl).1 rfl

end GluonDoc
